import Mathlib

/-!
Verification of the kafu runtime and serve crates (shallow embedding).

Memory contents are modelled as `List Nat` (one entry per byte); node ids as
`String`. Machine integers (`u32` page indices, `usize` lengths) are modelled
as `Nat`: every arithmetic operation in the modelled code either cannot
overflow on 64-bit targets (`page_index as usize * 65536 < 2^48`) or is an
explicit `saturating_mul`/`saturating_add` that never saturates in range, so
plain `Nat` arithmetic is exact. Rust functions that can panic (out-of-range
slicing) are modelled as `Option`-returning functions where `none` is the
panic.
-/

namespace Kafu

/-- `MAIN_MEMORY_PAGE_SIZE` from `kafu_runtime/src/engine/store.rs`. -/
def MAIN_MEMORY_PAGE_SIZE : Nat := 65536

/-- Rust slice `l[a..b]` (contents). The caller is responsible for the bound
checks; `listSlice` itself truncates. -/
def listSlice (l : List Nat) (a b : Nat) : List Nat :=
  (l.drop a).take (b - a)

/-- Rust `buf[start..start+data.len()].copy_from_slice(data)`: overwrite the
bytes of `buf` starting at `start` with `data`. -/
def listWrite (buf : List Nat) (start : Nat) (data : List Nat) : List Nat :=
  buf.take start ++ data ++ buf.drop (start + data.length)

/-- One step of the page loop of `compute_memory_delta_pages`
(`kafu_runtime/src/engine/instance.rs`).

The Rust loop runs `while offset < current.len()` advancing `offset` by one
page per iteration; `fuel` is a structural bound on the number of iterations
(`computeMemoryDeltaPages` passes `current.length + 1`, which always
suffices since the page size is positive).

The comparison `baseline[offset..base_end] != current[offset..base_end]`
with `base_end = min(offset + PAGE, baseline.len())` panics in Rust when
`base_end > current.len()`; this is modelled by returning `none`. -/
def computeLoop (baseline current : List Nat) (overlap : Nat) :
    Nat → Nat → Nat → List (Nat × List Nat) → Option (List (Nat × List Nat))
  | 0, _, _, acc => some acc
  | fuel + 1, pageIndex, offset, acc =>
    if offset < current.length then
      let e := min (offset + MAIN_MEMORY_PAGE_SIZE) current.length
      if offset < overlap then
        let baseEnd := min (offset + MAIN_MEMORY_PAGE_SIZE) baseline.length
        if baseEnd ≤ current.length then
          let acc' :=
            if listSlice baseline offset baseEnd = listSlice current offset baseEnd then
              acc
            else
              acc ++ [(pageIndex, listSlice current offset e)]
          computeLoop baseline current overlap fuel (pageIndex + 1)
            (offset + MAIN_MEMORY_PAGE_SIZE) acc'
        else
          none
      else
        computeLoop baseline current overlap fuel (pageIndex + 1)
          (offset + MAIN_MEMORY_PAGE_SIZE)
          (acc ++ [(pageIndex, listSlice current offset e)])
    else
      some acc

/-- `compute_memory_delta_pages` from `kafu_runtime/src/engine/instance.rs`
(the `label` argument only feeds a debug log and is omitted).
`none` models a Rust panic. -/
def computeMemoryDeltaPages (baseline current : List Nat) :
    Option (List (Nat × List Nat)) :=
  computeLoop baseline current (min baseline.length current.length)
    (current.length + 1) 0 0 []

/-- Number of 64 KiB pages needed to cover `len` bytes. -/
def numPagesOf (len : Nat) : Nat :=
  (len + MAIN_MEMORY_PAGE_SIZE - 1) / MAIN_MEMORY_PAGE_SIZE

/-- Whether page `i` of `current` belongs to the delta against `baseline`:
pages lying (partly) inside the overlap are compared over the baseline's
page extent, pages beyond the overlap always differ. -/
def pageIncluded (baseline current : List Nat) (i : Nat) : Bool :=
  if i * MAIN_MEMORY_PAGE_SIZE < min baseline.length current.length then
    let be := min (i * MAIN_MEMORY_PAGE_SIZE + MAIN_MEMORY_PAGE_SIZE) baseline.length
    decide (listSlice baseline (i * MAIN_MEMORY_PAGE_SIZE) be ≠
      listSlice current (i * MAIN_MEMORY_PAGE_SIZE) be)
  else
    true

/-- The bytes of page `i` of `current` (the last page may be short). -/
def pageOf (current : List Nat) (i : Nat) : List Nat :=
  listSlice current (i * MAIN_MEMORY_PAGE_SIZE)
    (min (i * MAIN_MEMORY_PAGE_SIZE + MAIN_MEMORY_PAGE_SIZE) current.length)

/-- Closed form of the delta list computed by `computeMemoryDeltaPages`
in the non-panicking case. -/
def deltaSpec (baseline current : List Nat) : List (Nat × List Nat) :=
  (List.range (numPagesOf current.length)).filterMap fun i =>
    if pageIncluded baseline current i then some (i, pageOf current i) else none

/-- `apply_memory_delta_into_sized` from
`kafu_runtime/src/engine/instance.rs`. `prevOut` is the incoming contents of
the reusable `out` buffer (`out.resize(out_len, 0)` keeps its prefix); the
parallel per-page writes are modelled sequentially, which is faithful
because the source documents page indices as unique / regions as disjoint.
`none` models the `bail!` error. -/
def applyMemoryDeltaIntoSized (baseline : List Nat)
    (deltaPages : List (Nat × List Nat)) (prevOut : List Nat)
    (targetLenBytes : Nat) : Option (List Nat) :=
  if baseline = [] ∧ deltaPages = [] then
    none
  else
    let outLen0 := deltaPages.foldl
      (fun m p => max m (p.1 * MAIN_MEMORY_PAGE_SIZE + p.2.length))
      baseline.length
    let outLen := max outLen0 targetLenBytes
    let resized := prevOut.take outLen ++ List.replicate (outLen - prevOut.length) 0
    let afterBase :=
      if baseline = [] then resized
      else
        baseline.take (min baseline.length outLen) ++
          resized.drop (min baseline.length outLen)
    some (deltaPages.foldl
      (fun buf p =>
        if p.1 * MAIN_MEMORY_PAGE_SIZE + p.2.length ≤ outLen ∧ p.2 ≠ [] then
          listWrite buf (p.1 * MAIN_MEMORY_PAGE_SIZE) p.2
        else buf)
      afterBase)

/-! ## Runtime migration points (`kafu_runtime/src/engine/migration.rs`, `linker.rs`) -/

/-- `MigrationStackEntry` from `kafu_runtime/src/engine/migration.rs`. -/
structure MigrationStackEntry where
  from_node_id : String
  wasm_stack_height : Nat
deriving Repr, DecidableEq

/-- `KafuFunctionMetadata` from `kafu_runtime/src/engine/kafu_metadata.rs`. -/
structure KafuFunctionMetadata where
  name : Option String
  dest : Option String
deriving Repr, DecidableEq

/-- `InterruptReason` from `kafu_runtime/src/engine/migration.rs`. -/
inductive InterruptReason where
  | funcEntry
  | funcExit
deriving Repr, DecidableEq

/-- `PendingMigration` from `kafu_runtime/src/engine/migration.rs`. -/
structure PendingMigration where
  func : KafuFunctionMetadata
  to_node_id : String
  reason : InterruptReason
deriving Repr, DecidableEq

/-- The migration-relevant part of `MigrationContext`. -/
structure MigrationCtx where
  pending : Option PendingMigration
  stack : List MigrationStackEntry
deriving Repr, DecidableEq

/-- `InterruptReason::new`: `none` models the `panic!` on any reason other
than 0 (`FuncEntry`) and 1 (`FuncExit`). -/
def interruptReasonNew (reason : Int) : Option InterruptReason :=
  if reason = 0 then some .funcEntry
  else if reason = 1 then some .funcExit
  else none

/-- The hardcoded `current_wasm_stack_height` of `handle_migration_point`
(the source sets it to `0` with a TODO to use the real stack height). -/
def currentWasmStackHeight : Nat := 0

/-- `MigrationContext::should_migrate`. The Rust `migration_stack.last()`
is the last element of the vector, i.e. `List.getLast?`. -/
def shouldMigrate (stack : List MigrationStackEntry) (fromNodeId : String)
    (reason : InterruptReason) (curHeight : Nat) (toNodeId : String) : Bool :=
  if fromNodeId = toNodeId then false
  else
    match reason with
    | .funcEntry => true
    | .funcExit =>
      match stack.getLast? with
      | none => false
      | some entry => decide (curHeight = entry.wasm_stack_height)

/-- `MigrationContext::on_migrate`: push on entry (`Vec::push` appends at
the end), pop on exit (`Vec::pop` removes the last element). -/
def onMigrate (stack : List MigrationStackEntry) (fromNodeId : String)
    (reason : InterruptReason) (curHeight : Nat) : List MigrationStackEntry :=
  match reason with
  | .funcEntry => stack ++ [⟨fromNodeId, curHeight⟩]
  | .funcExit => stack.dropLast

/-- `handle_migration_point` from `kafu_runtime/src/engine/migration.rs`.
`meta` is the result of the function-metadata lookup for the caller frame
(`none` models the missing-metadata `Err`, reported as `.error ()`). -/
def handleMigrationPoint (meta : Option KafuFunctionMetadata) (nodeId : String)
    (ctx : MigrationCtx) (reason : InterruptReason) :
    Except Unit (Option PendingMigration × MigrationCtx) :=
  match meta with
  | none => .error ()
  | some meta =>
    let toNodeId? : Option String :=
      match reason with
      | .funcEntry => meta.dest
      | .funcExit => (ctx.stack.getLast?).map (·.from_node_id)
    match toNodeId? with
    | none => .ok (none, ctx)
    | some toNodeId =>
      if shouldMigrate ctx.stack nodeId reason currentWasmStackHeight toNodeId then
        .ok (some ⟨meta, toNodeId, reason⟩,
          { ctx with stack := onMigrate ctx.stack nodeId reason currentWasmStackHeight })
      else
        .ok (none, ctx)

/-- The `snapify.should_checkpoint` host function installed by
`link_snapify_imports` (`kafu_runtime/src/engine/linker.rs`). The result is
`(return value, node_id after the call, migration context after the call)`;
`none` models the panic of `InterruptReason::new`. -/
def shouldCheckpointEnabled (meta : Option KafuFunctionMetadata) (nodeId : String)
    (ctx : MigrationCtx) (reasonRaw : Int) : Option (Int × String × MigrationCtx) :=
  match interruptReasonNew reasonRaw with
  | none => none
  | some reason =>
    match handleMigrationPoint meta nodeId ctx reason with
    | .ok (some pending, ctx') => some (1, nodeId, { ctx' with pending := some pending })
    | .ok (none, ctx') => some (0, nodeId, ctx')
    | .error _ => some (0, nodeId, ctx)

/-- The dummy `snapify.should_checkpoint` installed by
`link_snapify_imports_dummy` (singlenode emulation): on a migration decision
it switches `node_id` to the destination and returns 0 without recording a
pending migration. -/
def shouldCheckpointDummy (meta : Option KafuFunctionMetadata) (nodeId : String)
    (ctx : MigrationCtx) (reasonRaw : Int) : Option (Int × String × MigrationCtx) :=
  match interruptReasonNew reasonRaw with
  | none => none
  | some reason =>
    match handleMigrationPoint meta nodeId ctx reason with
    | .ok (some pending, ctx') => some (0, pending.to_node_id, ctx')
    | .ok (none, ctx') => some (0, nodeId, ctx')
    | .error _ => some (0, nodeId, ctx)

/-! ## Sender side (`kafu_serve/src/migration.rs`) -/

/-- `SnapshotCacheEntry` from `kafu_serve/src/service.rs`. -/
structure SnapshotCacheEntry where
  main : List Nat
  snapify : List Nat
deriving Repr, DecidableEq

/-- `CacheUpdate` from `kafu_serve/src/migration.rs`. -/
inductive CacheUpdate where
  | delta (main_len snapify_len : Nat)
      (main_delta_pages_raw snapify_delta_pages_raw : List (Nat × List Nat))
  | full (main snapify : List Nat)
deriving Repr, DecidableEq

/-- `WASM_PAGE_SIZE` from `kafu_serve/src/migration.rs` (same value as
`MAIN_MEMORY_PAGE_SIZE`). -/
def WASM_PAGE_SIZE : Nat := 65536

/-- `apply_delta_pages_in_place` from `kafu_serve/src/migration.rs`. -/
def applyDeltaPagesInPlace (mem : List Nat) (targetLen : Nat)
    (deltaPages : List (Nat × List Nat)) : List Nat :=
  let mem :=
    if mem.length < targetLen then mem ++ List.replicate (targetLen - mem.length) 0
    else mem
  deltaPages.foldl
    (fun m p =>
      if p.1 * WASM_PAGE_SIZE + p.2.length ≤ m.length ∧ p.2 ≠ [] then
        listWrite m (p.1 * WASM_PAGE_SIZE) p.2
      else m)
    mem

/-- `apply_cache_update` from `kafu_serve/src/migration.rs`: a delta update
is applied only when a baseline entry is cached (otherwise the cache is left
as is, with a warning); a full update replaces the entry. -/
def applyCacheUpdate (cache : Option SnapshotCacheEntry) (update : CacheUpdate) :
    Option SnapshotCacheEntry :=
  match update with
  | .delta mainLen snapifyLen mainDelta snapifyDelta =>
    match cache with
    | some entry =>
      some ⟨applyDeltaPagesInPlace entry.main mainLen mainDelta,
        applyDeltaPagesInPlace entry.snapify snapifyLen snapifyDelta⟩
    | none => none
  | .full main snapify => some ⟨main, snapify⟩

/-- `compress_if_smaller` from `kafu_serve/src/migration.rs`. `comp` models
the external `lz4_flex::block::compress_prepend_size`. -/
def compressIfSmaller (comp : List Nat → List Nat) (data : List Nat) :
    List Nat × Bool :=
  let compressed := comp data
  if compressed.length < data.length then (compressed, true) else (data, false)

/-- `MemoryDeltaPage` protobuf message. -/
structure MemoryDeltaPage where
  page_index : Nat
  data : List Nat
  data_compressed : Bool
deriving Repr, DecidableEq

/-- `MemoryImage` protobuf message. -/
structure MemoryImage where
  data : List Nat
  compressed : Bool
  pages : Nat
  delta_pages : List MemoryDeltaPage
deriving Repr, DecidableEq

/-- `MigrateRequest` protobuf message. -/
structure MigrateRequest where
  wasm_sha256 : List Nat
  migration_stack : List MigrationStackEntry
  main_memory : Option MemoryImage
  snapify_memory : Option MemoryImage
deriving Repr, DecidableEq

/-- `build_delta_pages_payload` from `kafu_serve/src/migration.rs`. -/
def buildDeltaPagesPayload (comp : List Nat → List Nat)
    (rawPages : List (Nat × List Nat)) (useCompression : Bool) :
    List MemoryDeltaPage :=
  rawPages.map fun p =>
    let payload :=
      if useCompression then
        let compressed := comp p.2
        if compressed.length < p.2.length then (compressed, true) else (p.2, false)
      else (p.2, false)
    { page_index := p.1, data := payload.1, data_compressed := payload.2 }

/-- The payload construction of `prepare_full_snapshot_request`
(`kafu_serve/src/migration.rs`): when compression is enabled the main
memory image goes through `compress_if_smaller`, while the snapify memory
image is always transmitted raw with `compressed = false`; the cache update
keeps the uncompressed memories. `comp` models the external
`lz4_flex::block::compress_prepend_size`; snapshot capture and logging are
outside the model. -/
def prepareFullSnapshotRequest (comp : List Nat → List Nat)
    (useCompression : Bool) (wasmSha : List Nat)
    (migrationStack : List MigrationStackEntry)
    (mainMemory snapifyMemory : List Nat) : MigrateRequest × CacheUpdate :=
  let pair :=
    if useCompression then compressIfSmaller comp mainMemory
    else (mainMemory, false)
  (⟨wasmSha, migrationStack,
    some ⟨pair.1, pair.2, mainMemory.length / WASM_PAGE_SIZE, []⟩,
    some ⟨snapifyMemory, false, snapifyMemory.length / WASM_PAGE_SIZE, []⟩⟩,
   .full mainMemory snapifyMemory)

/-- Outcome of one attempt of the retry loop in `send_migration_request`:
the request preparation fails (`prepare_migration_request(..).await?`
propagates out of the function), the gRPC call fails at transport level
(`retryable` per `is_retryable_migration_send_error`), or a `MigrateResponse`
reply is delivered with its `success` flag. -/
inductive AttemptOutcome where
  | prepareErr
  | transportErr (retryable : Bool)
  | reply (success : Bool)
deriving Repr, DecidableEq

/-- Overall result of `send_migration_request`. -/
inductive SendResult where
  | ok
  | prepareFailed
  | sendFailed
  | serverReturnedFailure
deriving Repr, DecidableEq

/-- Result of the retry loop before the final `res.success` check. -/
inductive LoopResult where
  | okReply (success : Bool)
  | errPrepare
  | errSend
deriving Repr, DecidableEq

/-- `MIGRATION_SEND_MAX_ATTEMPTS` from `kafu_serve/src/migration.rs`. -/
def MIGRATION_SEND_MAX_ATTEMPTS : Nat := 5

/-- The retry loop of `send_migration_request`. `env n` is the outcome of
attempt `n` and `upd n` the `cache_update` prepared at attempt `n`
(`prepare_migration_request` recomputes it each attempt). `fuel` bounds the
number of retries structurally; the loop retries only while
`attempt < MIGRATION_SEND_MAX_ATTEMPTS`, so the initial fuel
`MIGRATION_SEND_MAX_ATTEMPTS` always suffices and the fuel-exhausted branch
is unreachable. On a delivered reply, `apply_cache_update` runs before the
loop breaks. -/
def sendLoop (env : Nat → AttemptOutcome) (upd : Nat → CacheUpdate) :
    Nat → Nat → Option SnapshotCacheEntry → LoopResult × Option SnapshotCacheEntry
  | 0, attempt, cache =>
    match env attempt with
    | .prepareErr => (.errPrepare, cache)
    | .reply success => (.okReply success, applyCacheUpdate cache (upd attempt))
    | .transportErr _ => (.errSend, cache)
  | fuel + 1, attempt, cache =>
    match env attempt with
    | .prepareErr => (.errPrepare, cache)
    | .reply success => (.okReply success, applyCacheUpdate cache (upd attempt))
    | .transportErr retryable =>
      if attempt < MIGRATION_SEND_MAX_ATTEMPTS ∧ retryable then
        sendLoop env upd fuel (attempt + 1) cache
      else (.errSend, cache)

/-- `send_migration_request` from `kafu_serve/src/migration.rs`, reduced to
its effect on the snapshot cache: runs the retry loop (attempts numbered
from 1) and maps the loop result through the final `res.success` check. -/
def sendMigrationRequest (env : Nat → AttemptOutcome) (upd : Nat → CacheUpdate)
    (cache : Option SnapshotCacheEntry) : SendResult × Option SnapshotCacheEntry :=
  match sendLoop env upd MIGRATION_SEND_MAX_ATTEMPTS 1 cache with
  | (.okReply success, cache') =>
    (if success then .ok else .serverReturnedFailure, cache')
  | (.errPrepare, cache') => (.prepareFailed, cache')
  | (.errSend, cache') => (.sendFailed, cache')

/-! ## Receiver side (`kafu_serve/src/service.rs`) -/

/-- The gRPC status codes produced by `KafuService::migrate`
(messages elided). -/
inductive StatusCode where
  | invalidArgument
  | failedPrecondition
deriving Repr, DecidableEq

/-- Per-page validation loop of `reconstruct_one` inside
`KafuService::migrate`: for each delta page, check `page_index < pages`,
decompress if flagged (`decomp` models
`lz4_flex::block::decompress_size_prepended`, `none` is a decompression
error), require the (decompressed) length to be exactly one page, require
`page_index * 65536 + len ≤ targetLen`, and collect the validated pages in
order. The first failing check rejects with `InvalidArgument`. -/
def validateDeltaPages (decomp : List Nat → Option (List Nat)) (pages : Nat)
    (targetLen : Nat) : List MemoryDeltaPage → Except StatusCode (List (Nat × List Nat))
  | [] => .ok []
  | p :: rest =>
    if pages ≤ p.page_index then .error .invalidArgument
    else
      match (if p.data_compressed then decomp p.data else some p.data) with
      | none => .error .invalidArgument
      | some data =>
        if data.length ≠ WASM_PAGE_SIZE then .error .invalidArgument
        else if targetLen < p.page_index * WASM_PAGE_SIZE + data.length then
          .error .invalidArgument
        else
          match validateDeltaPages decomp pages targetLen rest with
          | .ok rest' => .ok ((p.page_index, data) :: rest')
          | .error e => .error e

/-- The base-image computation of `reconstruct_one`: start from the
transmitted full data (decompressed when flagged) when present, otherwise
from the cached baseline. -/
def decodeBase (decomp : List Nat → Option (List Nat)) (img : MemoryImage)
    (baseline : List Nat) : Except StatusCode (List Nat) :=
  if img.data ≠ [] then
    (if img.compressed then
      match decomp img.data with
      | some d => Except.ok d
      | none => Except.error StatusCode.invalidArgument
    else Except.ok img.data)
  else Except.ok baseline

/-- `reconstruct_one` inside `KafuService::migrate`: rebuild one memory from
the transmitted image, the cached baseline and the requested length. The
reusable buffer is cleared (`buf.clear()`) before
`apply_memory_delta_into_sized`, so its previous contents never leak. -/
def reconstructOne (decomp : List Nat → Option (List Nat)) (img : MemoryImage)
    (baseline : List Nat) (targetLen : Nat) : Except StatusCode (List Nat) :=
  if targetLen < baseline.length then .error .invalidArgument
  else
    match decodeBase decomp img baseline with
    | .error e => .error e
    | .ok base0 =>
      if targetLen < base0.length then .error .invalidArgument
      else
        let base := base0 ++ List.replicate (targetLen - base0.length) 0
        if img.delta_pages = [] then .ok base
        else
          match validateDeltaPages decomp img.pages targetLen img.delta_pages with
          | .error e => .error e
          | .ok deltaPages =>
            match applyMemoryDeltaIntoSized base deltaPages [] targetLen with
            | some out => .ok out
            | none => .error .invalidArgument

instance {ε α : Type} [DecidableEq ε] [DecidableEq α] : DecidableEq (Except ε α) :=
  fun a b =>
    match a, b with
    | .ok x, .ok y =>
      if h : x = y then isTrue (by rw [h]) else isFalse (by simp [h])
    | .error x, .error y =>
      if h : x = y then isTrue (by rw [h]) else isFalse (by simp [h])
    | .ok _, .error _ => isFalse (by simp)
    | .error _, .ok _ => isFalse (by simp)

/-- The restore command handed to the spawned task by `migrate`
(`instance.restore(migration_stack, main_memory, snapify_memory)`). -/
structure RestoreCmd where
  migration_stack : List MigrationStackEntry
  main_memory : List Nat
  snapify_memory : List Nat
deriving Repr, DecidableEq

/-- Result of a `Migrate` RPC on the receiver: the reply (or error status),
the snapshot cache after the call, and the restore command passed to the
runtime (if any). -/
structure MigrateOutcome where
  resp : Except StatusCode Bool
  cache : Option SnapshotCacheEntry
  restore : Option RestoreCmd
deriving Repr, DecidableEq

/-- `pages_to_len` inside `KafuService::migrate`:
`(pages as usize).checked_mul(65536)` on a 64-bit target. -/
def pagesToLen (pages : Nat) : Option Nat :=
  if pages * 65536 < 2 ^ 64 then some (pages * 65536) else none

/-- `KafuService::migrate` from `kafu_serve/src/service.rs`, as a transition
on the snapshot cache. `localSha` is the service's `wasm_sha256` field. The
response `.ok true` models `MigrateResponse { success: true }`. -/
def serviceMigrate (decomp : List Nat → Option (List Nat)) (localSha : List Nat)
    (cache0 : Option SnapshotCacheEntry) (req : MigrateRequest) : MigrateOutcome :=
  match req.main_memory with
  | none => ⟨.error .invalidArgument, cache0, none⟩
  | some mainImg =>
    match req.snapify_memory with
    | none => ⟨.error .invalidArgument, cache0, none⟩
    | some snapifyImg =>
      let usesDelta := mainImg.delta_pages ≠ [] ∨ snapifyImg.delta_pages ≠ []
      if req.wasm_sha256 ≠ localSha then
        ⟨.error .failedPrecondition, cache0, none⟩
      else if mainImg.pages = 0 then ⟨.error .invalidArgument, cache0, none⟩
      else if snapifyImg.pages = 0 then ⟨.error .invalidArgument, cache0, none⟩
      else
        match pagesToLen mainImg.pages, pagesToLen snapifyImg.pages with
        | none, _ => ⟨.error .invalidArgument, cache0, none⟩
        | some _, none => ⟨.error .invalidArgument, cache0, none⟩
        | some requestedMainLen, some requestedSnapifyLen =>
          let stack := req.migration_stack
          let reconstructed :
              Except StatusCode ((List Nat × List Nat) × Option SnapshotCacheEntry) :=
            if usesDelta then
              match cache0 with
              | none => .error .failedPrecondition
              | some cached =>
                match reconstructOne decomp mainImg cached.main requestedMainLen with
                | .error e => .error e
                | .ok main =>
                  match reconstructOne decomp snapifyImg cached.snapify
                      requestedSnapifyLen with
                  | .error e => .error e
                  | .ok snapify => .ok ((main, snapify), some ⟨main, snapify⟩)
            else
              if mainImg.data = [] ∨ snapifyImg.data = [] then .error .invalidArgument
              else
                match (if mainImg.compressed then decomp mainImg.data
                    else some mainImg.data) with
                | none => .error .invalidArgument
                | some main =>
                  match (if snapifyImg.compressed then decomp snapifyImg.data
                      else some snapifyImg.data) with
                  | none => .error .invalidArgument
                  | some snapify => .ok ((main, snapify), some ⟨main, snapify⟩)
          match reconstructed with
          | .error e => ⟨.error e, cache0, none⟩
          | .ok ((mainMemory, snapifyMemory), cache') =>
            if requestedMainLen < mainMemory.length then
              ⟨.error .invalidArgument, cache', none⟩
            else
              let mainMemory :=
                mainMemory ++ List.replicate (requestedMainLen - mainMemory.length) 0
              if requestedSnapifyLen < snapifyMemory.length then
                ⟨.error .invalidArgument, cache', none⟩
              else
                let snapifyMemory := snapifyMemory ++
                  List.replicate (requestedSnapifyLen - snapifyMemory.length) 0
                ⟨.ok true, cache', some ⟨stack, mainMemory, snapifyMemory⟩⟩

/-! ## Follower liveness monitor (`kafu_serve/src/liveness.rs`) -/

/-- `FollowerOnCoordinatorLost` from `kafu_config/src/lib.rs`. -/
inductive FollowerOnCoordinatorLost where
  | shutdownSelf
  | ignoreLost
deriving Repr, DecidableEq

/-- The reason recorded for a missed heartbeat (message text elided). -/
inductive MissReason where
  | noNewHeartbeat
  | noHeartbeatYet
deriving Repr, DecidableEq

/-- `PeerHeartbeatState` as used by
`run_coordinator_push_heartbeat_monitor`. -/
structure PeerHeartbeatState where
  consecutive_failures : Nat
  first_failure_at : Option Nat
  last_reason : Option MissReason
deriving Repr, DecidableEq

/-- The `PeerHeartbeatState::default()` value. -/
def peerHeartbeatDefault : PeerHeartbeatState := ⟨0, none, none⟩

/-- The local state of `run_coordinator_push_heartbeat_monitor`. `Instant`
values are modelled as millisecond timestamps (`Nat`). -/
structure MonitorState where
  state : PeerHeartbeatState
  coordinator_execution_observed : Bool
  last_seen : Option Nat
  last_seen_checked : Option Nat
deriving Repr, DecidableEq

/-- Initial monitor state. -/
def monitorInit : MonitorState := ⟨peerHeartbeatDefault, false, none, none⟩

/-- One `tokio::select!` arm firing in the monitor loop: a shutdown-channel
message, a watch update from the `Heartbeat` RPC handler (carrying the
sender's node id, its `execution_started` flag and the `last_seen` instant
recorded by the handler), or a ticker tick at time `now`. -/
inductive MonitorEvent where
  | shutdownRecv
  | heartbeat (from_node_id : String) (execution_started : Bool) (last_seen : Nat)
  | tick (now : Nat)
deriving Repr, DecidableEq

/-- `FAILURES_TO_SHUTDOWN` from `run_coordinator_push_heartbeat_monitor`. -/
def FAILURES_TO_SHUTDOWN : Nat := 5

/-- `FAILURE_MIN_DURATION` (5 s) in milliseconds. -/
def FAILURE_MIN_DURATION_MS : Nat := 5000

/-- One iteration of the monitor loop. Returns the new state, whether the
local shutdown signal was sent in this iteration, and whether the loop
returns (stops) after this iteration. -/
def monitorStep (coordinatorId : String) (onLost : FollowerOnCoordinatorLost)
    (s : MonitorState) (e : MonitorEvent) : MonitorState × Bool × Bool :=
  match e with
  | .shutdownRecv => (s, false, true)
  | .heartbeat fromId execStarted seen =>
    if fromId = coordinatorId then
      let s := { s with last_seen := some seen }
      if execStarted ∧ ¬s.coordinator_execution_observed then
        ({ s with
            coordinator_execution_observed := true
            state := peerHeartbeatDefault
            last_seen_checked := none }, false, false)
      else if s.coordinator_execution_observed then
        ({ s with state := peerHeartbeatDefault }, false, false)
      else (s, false, false)
    else (s, false, false)
  | .tick now =>
    if ¬s.coordinator_execution_observed then (s, false, false)
    else
      let nowLastSeen := s.last_seen
      if nowLastSeen = none ∨ nowLastSeen = s.last_seen_checked then
        let failures := s.state.consecutive_failures + 1
        let firstFailure := s.state.first_failure_at.getD now
        let reason : MissReason :=
          match nowLastSeen with
          | some _ => .noNewHeartbeat
          | none => .noHeartbeatYet
        let s := { s with
          state := ⟨failures, some firstFailure, some reason⟩ }
        if failures < FAILURES_TO_SHUTDOWN then (s, false, false)
        else if now - firstFailure < FAILURE_MIN_DURATION_MS then (s, false, false)
        else
          match onLost with
          | .shutdownSelf => (s, true, true)
          | .ignoreLost => (s, false, true)
      else
        ({ s with state := peerHeartbeatDefault, last_seen_checked := nowLastSeen },
          false, false)

/-- Run the monitor loop over a finite event trace, starting from state `s`.
Returns the final state and whether the local shutdown signal was sent at
any point. -/
def runMonitor (coordinatorId : String) (onLost : FollowerOnCoordinatorLost) :
    List MonitorEvent → MonitorState → MonitorState × Bool
  | [], s => (s, false)
  | e :: rest, s =>
    match monitorStep coordinatorId onLost s e with
    | (s', sent, stopped) =>
      if sent then (s', true)
      else if stopped then (s', false)
      else runMonitor coordinatorId onLost rest s'

/-- `run_coordinator_push_heartbeat_monitor` from
`kafu_serve/src/liveness.rs`: when `follower_on_coordinator_lost` is
`Ignore` the function returns immediately; otherwise it runs the monitor
loop. -/
def runCoordinatorPushHeartbeatMonitor (coordinatorId : String)
    (onLost : FollowerOnCoordinatorLost) (events : List MonitorEvent) :
    MonitorState × Bool :=
  match onLost with
  | .ignoreLost => (monitorInit, false)
  | .shutdownSelf => runMonitor coordinatorId .shutdownSelf events monitorInit

/-- Whether a monitor event is a heartbeat from the coordinator carrying
`execution_started = true` (the observation that arms loss detection). -/
def isCoordinatorExecHeartbeat (coordinatorId : String) : MonitorEvent → Prop
  | .heartbeat fromId execStarted _ => fromId = coordinatorId ∧ execStarted = true
  | _ => False

instance (coordinatorId : String) (e : MonitorEvent) :
    Decidable (isCoordinatorExecHeartbeat coordinatorId e) := by
  cases e <;> simp [isCoordinatorExecHeartbeat] <;> infer_instance

/-! ## Helper lemmas -/

theorem le_foldl_max (f : Nat × List Nat → Nat) (l : List (Nat × List Nat)) (a : Nat) :
    a ≤ l.foldl (fun m q => max m (f q)) a := by
  induction l generalizing a with
  | nil => simp
  | cons q l ih => exact le_trans (le_max_left _ _) (ih (max a (f q)))

theorem foldl_max_mem_le (f : Nat × List Nat → Nat) (l : List (Nat × List Nat)) (a : Nat)
    (p : Nat × List Nat) (hp : p ∈ l) : f p ≤ l.foldl (fun m q => max m (f q)) a := by
  induction l generalizing a with
  | nil => simp at hp
  | cons q l ih =>
    rcases List.mem_cons.mp hp with rfl | hp
    · exact le_trans (le_max_right _ _) (le_foldl_max f l (max a (f p)))
    · exact ih _ hp

theorem foldl_max_le (f : Nat × List Nat → Nat) (l : List (Nat × List Nat)) (a c : Nat)
    (ha : a ≤ c) (hl : ∀ p ∈ l, f p ≤ c) : l.foldl (fun m q => max m (f q)) a ≤ c := by
  induction l generalizing a with
  | nil => simpa
  | cons q l ih =>
    exact ih (max a (f q)) (max_le ha (hl q (List.mem_cons_self q l)))
      (fun p hp => hl p (List.mem_cons_of_mem q hp))

theorem foldl_max_shift (f : Nat × List Nat → Nat) (l : List (Nat × List Nat)) (a : Nat) :
    l.foldl (fun m q => max m (f q)) a = max a (l.foldl (fun m q => max m (f q)) 0) := by
  induction l generalizing a with
  | nil => simp
  | cons q l ih =>
    rw [List.foldl_cons, ih, List.foldl_cons, ih (max 0 (f q))]
    simp [max_assoc]

theorem listSlice_length (l : List Nat) (a b : Nat) :
    (listSlice l a b).length = min (b - a) (l.length - a) := by
  simp [listSlice]

theorem listSlice_getElem? (l : List Nat) (a b k : Nat) :
    (listSlice l a b)[k]? = if k < b - a then l[a + k]? else none := by
  simp [listSlice, List.getElem?_take, List.getElem?_drop]

theorem listWrite_length (buf : List Nat) (s : Nat) (d : List Nat)
    (h : s + d.length ≤ buf.length) : (listWrite buf s d).length = buf.length := by
  simp [listWrite]
  omega

theorem listWrite_getElem? (buf : List Nat) (s : Nat) (d : List Nat)
    (h : s + d.length ≤ buf.length) (j : Nat) :
    (listWrite buf s d)[j]? =
      if j < s then buf[j]?
      else if j < s + d.length then d[j - s]?
      else buf[j]? := by
  have hts : (buf.take s).length = s := by simp; omega
  unfold listWrite
  rw [List.getElem?_append, List.getElem?_append]
  simp only [List.length_append, hts, List.getElem?_take, List.getElem?_drop]
  split_ifs with h1 h2 h3 <;> try rfl
  all_goals try omega
  all_goals (congr 1; omega)

theorem numPages_le_iff (len pi : Nat) :
    numPagesOf len ≤ pi ↔ len ≤ pi * MAIN_MEMORY_PAGE_SIZE := by
  unfold numPagesOf MAIN_MEMORY_PAGE_SIZE
  omega

theorem lt_numPages_iff (len pi : Nat) :
    pi < numPagesOf len ↔ pi * MAIN_MEMORY_PAGE_SIZE < len := by
  unfold numPagesOf MAIN_MEMORY_PAGE_SIZE
  omega

/-- The delta-page loop computes `deltaSpec` (tail from page `pi`), provided
the panic case is excluded: either the current memory is at least as long as
the baseline, or its length is page-aligned. -/
theorem computeLoop_eq (B M : List Nat)
    (hsafe : B.length ≤ M.length ∨ M.length % MAIN_MEMORY_PAGE_SIZE = 0) :
    ∀ (fuel pi : Nat) (acc : List (Nat × List Nat)),
    M.length ≤ (pi + fuel) * MAIN_MEMORY_PAGE_SIZE →
    computeLoop B M (min B.length M.length) fuel pi (pi * MAIN_MEMORY_PAGE_SIZE) acc =
      some (acc ++ (List.range' pi (numPagesOf M.length - pi)).filterMap
        (fun i => if pageIncluded B M i then some (i, pageOf M i) else none)) := by
  intro fuel
  induction fuel with
  | zero =>
    intro pi acc hf
    have h0 : numPagesOf M.length - pi = 0 := by
      have := (numPages_le_iff M.length pi).mpr (by simpa using hf)
      omega
    simp [computeLoop, h0]
  | succ fuel ih =>
    intro pi acc hf
    by_cases hlt : pi * MAIN_MEMORY_PAGE_SIZE < M.length
    · have hpi : pi < numPagesOf M.length := (lt_numPages_iff _ _).mpr hlt
      have hk : numPagesOf M.length - pi = (numPagesOf M.length - (pi + 1)) + 1 := by
        omega
      have harith : pi * MAIN_MEMORY_PAGE_SIZE + MAIN_MEMORY_PAGE_SIZE
          = (pi + 1) * MAIN_MEMORY_PAGE_SIZE := by ring
      have hf' : M.length ≤ ((pi + 1) + fuel) * MAIN_MEMORY_PAGE_SIZE := by
        have he : (pi + 1) + fuel = pi + (fuel + 1) := by omega
        rw [he]
        exact hf
      by_cases hov : pi * MAIN_MEMORY_PAGE_SIZE < min B.length M.length
      · have hbe : min (pi * MAIN_MEMORY_PAGE_SIZE + MAIN_MEMORY_PAGE_SIZE) B.length
            ≤ M.length := by
          rcases hsafe with h | h
          · exact le_trans (min_le_right _ _) h
          · unfold MAIN_MEMORY_PAGE_SIZE at *
            omega
        have hpinc : pageIncluded B M pi =
            decide (listSlice B (pi * MAIN_MEMORY_PAGE_SIZE)
                (min (pi * MAIN_MEMORY_PAGE_SIZE + MAIN_MEMORY_PAGE_SIZE) B.length) ≠
              listSlice M (pi * MAIN_MEMORY_PAGE_SIZE)
                (min (pi * MAIN_MEMORY_PAGE_SIZE + MAIN_MEMORY_PAGE_SIZE) B.length)) := by
          simp [pageIncluded, hov]
        rw [harith] at hpinc
        simp only [computeLoop, if_pos hlt, if_pos hov, if_pos hbe]
        rw [harith, ih (pi + 1) _ hf', hk, List.range'_succ, List.filterMap_cons]
        by_cases heq : listSlice B (pi * MAIN_MEMORY_PAGE_SIZE)
              (min ((pi + 1) * MAIN_MEMORY_PAGE_SIZE) B.length) =
            listSlice M (pi * MAIN_MEMORY_PAGE_SIZE)
              (min ((pi + 1) * MAIN_MEMORY_PAGE_SIZE) B.length)
        · simp [heq, hpinc, pageOf, harith]
        · simp [heq, hpinc, pageOf, harith]
      · have hpinc : pageIncluded B M pi = true := by
          simp [pageIncluded, hov]
        simp only [computeLoop, if_pos hlt, if_neg hov]
        rw [harith, ih (pi + 1) _ hf', hk, List.range'_succ, List.filterMap_cons]
        simp [hpinc, pageOf, harith]
    · have h0 : numPagesOf M.length - pi = 0 := by
        have := (numPages_le_iff M.length pi).mpr (by omega)
        omega
      simp [computeLoop, hlt, h0]

/-- `computeMemoryDeltaPages` returns exactly `deltaSpec` whenever the
panic case (`current` shorter than `baseline` and not page-aligned) is
excluded. -/
theorem computeMemoryDeltaPages_eq_deltaSpec (B M : List Nat)
    (hsafe : B.length ≤ M.length ∨ M.length % MAIN_MEMORY_PAGE_SIZE = 0) :
    computeMemoryDeltaPages B M = some (deltaSpec B M) := by
  have h := computeLoop_eq B M hsafe (M.length + 1) 0 [] (by
    unfold MAIN_MEMORY_PAGE_SIZE
    omega)
  simpa [computeMemoryDeltaPages, deltaSpec, List.range_eq_range'] using h

theorem mem_deltaSpec (B M : List Nat) (i : Nat) (p : List Nat) :
    (i, p) ∈ deltaSpec B M ↔
      i * MAIN_MEMORY_PAGE_SIZE < M.length ∧ pageIncluded B M i = true ∧
        p = pageOf M i := by
  simp only [deltaSpec, List.mem_filterMap, List.mem_range]
  constructor
  · rintro ⟨a, ha, hval⟩
    by_cases hinc : pageIncluded B M a
    · rw [if_pos hinc] at hval
      obtain ⟨rfl, rfl⟩ : a = i ∧ pageOf M a = p := by simpa using hval
      exact ⟨(lt_numPages_iff _ _).mp ha, hinc, rfl⟩
    · rw [if_neg hinc] at hval
      cases hval
  · rintro ⟨hlt, hinc, rfl⟩
    exact ⟨i, (lt_numPages_iff _ _).mpr hlt, by rw [if_pos hinc]⟩

theorem pageIncluded_iff (B M : List Nat) (i : Nat)
    (h : i * MAIN_MEMORY_PAGE_SIZE < M.length) :
    pageIncluded B M i = true ↔
      (B.length ≤ i * MAIN_MEMORY_PAGE_SIZE ∨
        listSlice B (i * MAIN_MEMORY_PAGE_SIZE)
            (min (i * MAIN_MEMORY_PAGE_SIZE + MAIN_MEMORY_PAGE_SIZE) B.length) ≠
          listSlice M (i * MAIN_MEMORY_PAGE_SIZE)
            (min (i * MAIN_MEMORY_PAGE_SIZE + MAIN_MEMORY_PAGE_SIZE) B.length)) := by
  unfold pageIncluded
  by_cases hov : i * MAIN_MEMORY_PAGE_SIZE < min B.length M.length
  · rw [if_pos hov]
    simp only [decide_eq_true_eq]
    have hnb : ¬ B.length ≤ i * MAIN_MEMORY_PAGE_SIZE := by omega
    tauto
  · rw [if_neg hov]
    have hb : B.length ≤ i * MAIN_MEMORY_PAGE_SIZE := by omega
    simp [hb]

/-- C5 (amended with the no-panic hypothesis): `compute_memory_delta_pages`
includes 64 KiB page `i` iff the page starts at or beyond the baseline's
length or its bytes differ from the baseline's corresponding page (compared
over the baseline page's actual extent), and each included entry carries
exactly `(page_index, the page's bytes from the current memory)`. -/
theorem compute_memory_delta_pages_characterization (B M : List Nat)
    (hsafe : B.length ≤ M.length ∨ M.length % MAIN_MEMORY_PAGE_SIZE = 0) :
    ∃ d, computeMemoryDeltaPages B M = some d ∧
      ∀ i p, ((i, p) ∈ d ↔
        i * MAIN_MEMORY_PAGE_SIZE < M.length ∧
        (B.length ≤ i * MAIN_MEMORY_PAGE_SIZE ∨
          listSlice B (i * MAIN_MEMORY_PAGE_SIZE)
              (min (i * MAIN_MEMORY_PAGE_SIZE + MAIN_MEMORY_PAGE_SIZE) B.length) ≠
            listSlice M (i * MAIN_MEMORY_PAGE_SIZE)
              (min (i * MAIN_MEMORY_PAGE_SIZE + MAIN_MEMORY_PAGE_SIZE) B.length)) ∧
        p = pageOf M i) := by
  refine ⟨deltaSpec B M, computeMemoryDeltaPages_eq_deltaSpec B M hsafe, ?_⟩
  intro i p
  rw [mem_deltaSpec]
  constructor
  · rintro ⟨h1, h2, h3⟩
    exact ⟨h1, (pageIncluded_iff B M i h1).mp h2, h3⟩
  · rintro ⟨h1, h2, h3⟩
    exact ⟨h1, (pageIncluded_iff B M i h1).mpr h2, h3⟩

/-- Witness for `compute_memory_delta_pages_characterization` at a concrete
input: baseline `[1, 2]`, current `[1, 3]`. -/
theorem compute_memory_delta_pages_characterization_witness :
    ∃ d, computeMemoryDeltaPages [1, 2] [1, 3] = some d ∧
      ∀ i p, ((i, p) ∈ d ↔
        i * MAIN_MEMORY_PAGE_SIZE < [1, 3].length ∧
        ([1, 2].length ≤ i * MAIN_MEMORY_PAGE_SIZE ∨
          listSlice [1, 2] (i * MAIN_MEMORY_PAGE_SIZE)
              (min (i * MAIN_MEMORY_PAGE_SIZE + MAIN_MEMORY_PAGE_SIZE) [1, 2].length) ≠
            listSlice [1, 3] (i * MAIN_MEMORY_PAGE_SIZE)
              (min (i * MAIN_MEMORY_PAGE_SIZE + MAIN_MEMORY_PAGE_SIZE) [1, 2].length)) ∧
        p = pageOf [1, 3] i) :=
  compute_memory_delta_pages_characterization [1, 2] [1, 3] (Or.inl (by decide))

/-- C5 counterexample: on baseline `[0, 0]` and current `[0]` the Rust code
panics (the slice `current[0..2]` is out of range), so there is no result
list at all; the claim's characterization demands the delta `[]` here. -/
theorem compute_memory_delta_pages_panics_on_shrink :
    computeMemoryDeltaPages [0, 0] [0] = none := by
  decide

theorem foldl_write_length (outLen : Nat) (d : List (Nat × List Nat)) (buf : List Nat)
    (hbuf : buf.length = outLen) :
    (d.foldl
      (fun buf p =>
        if p.1 * MAIN_MEMORY_PAGE_SIZE + p.2.length ≤ outLen ∧ p.2 ≠ [] then
          listWrite buf (p.1 * MAIN_MEMORY_PAGE_SIZE) p.2
        else buf)
      buf).length = outLen := by
  induction d generalizing buf with
  | nil => simpa
  | cons p rest ih =>
    simp only [List.foldl_cons]
    apply ih
    split_ifs with h
    · rw [listWrite_length _ _ _ (by rw [hbuf]; exact h.1)]
      exact hbuf
    · exact hbuf

theorem foldl_write_getElem? (mem : List Nat) (outLen : Nat)
    (d : List (Nat × List Nat))
    (hd : ∀ p ∈ d, p.1 * MAIN_MEMORY_PAGE_SIZE + p.2.length ≤ outLen ∧
      ∀ k, k < p.2.length → p.2[k]? = mem[p.1 * MAIN_MEMORY_PAGE_SIZE + k]?) :
    ∀ (buf : List Nat), buf.length = outLen → ∀ j,
      (d.foldl
        (fun buf p =>
          if p.1 * MAIN_MEMORY_PAGE_SIZE + p.2.length ≤ outLen ∧ p.2 ≠ [] then
            listWrite buf (p.1 * MAIN_MEMORY_PAGE_SIZE) p.2
          else buf)
        buf)[j]? =
      if ∃ p ∈ d, p.1 * MAIN_MEMORY_PAGE_SIZE ≤ j ∧
          j < p.1 * MAIN_MEMORY_PAGE_SIZE + p.2.length then
        mem[j]?
      else buf[j]? := by
  induction d with
  | nil =>
    intro buf hbuf j
    simp
  | cons p rest ih =>
    intro buf hbuf j
    have hp := hd p (List.mem_cons_self _ _)
    have hdrest : ∀ q ∈ rest, q.1 * MAIN_MEMORY_PAGE_SIZE + q.2.length ≤ outLen ∧
        ∀ k, k < q.2.length → q.2[k]? = mem[q.1 * MAIN_MEMORY_PAGE_SIZE + k]? :=
      fun q hq => hd q (List.mem_cons_of_mem _ hq)
    have hbuf' :
        (if p.1 * MAIN_MEMORY_PAGE_SIZE + p.2.length ≤ outLen ∧ p.2 ≠ [] then
          listWrite buf (p.1 * MAIN_MEMORY_PAGE_SIZE) p.2
        else buf).length = outLen := by
      split_ifs with h
      · rw [listWrite_length _ _ _ (by rw [hbuf]; exact h.1)]
        exact hbuf
      · exact hbuf
    simp only [List.foldl_cons]
    rw [ih hdrest _ hbuf' j]
    by_cases hcov : ∃ q ∈ rest, q.1 * MAIN_MEMORY_PAGE_SIZE ≤ j ∧
        j < q.1 * MAIN_MEMORY_PAGE_SIZE + q.2.length
    · rw [if_pos hcov, if_pos (by
        obtain ⟨q, hq, hqc⟩ := hcov
        exact ⟨q, List.mem_cons_of_mem _ hq, hqc⟩)]
    · rw [if_neg hcov]
      by_cases hpc : p.1 * MAIN_MEMORY_PAGE_SIZE ≤ j ∧
          j < p.1 * MAIN_MEMORY_PAGE_SIZE + p.2.length
      · have hne : p.2 ≠ [] := by
          intro hnil
          rw [hnil] at hpc
          simp at hpc
          omega
        rw [if_pos ⟨hp.1, hne⟩, listWrite_getElem? buf _ _ (by rw [hbuf]; exact hp.1) j,
          if_neg (not_lt.mpr hpc.1), if_pos hpc.2,
          hp.2 (j - p.1 * MAIN_MEMORY_PAGE_SIZE) (by omega)]
        rw [if_pos ⟨p, List.mem_cons_self _ _, hpc⟩]
        congr 1
        omega
      · have hstep :
            (if p.1 * MAIN_MEMORY_PAGE_SIZE + p.2.length ≤ outLen ∧ p.2 ≠ [] then
              listWrite buf (p.1 * MAIN_MEMORY_PAGE_SIZE) p.2
            else buf)[j]? = buf[j]? := by
          split_ifs with hg
          · rw [listWrite_getElem? buf _ _ (by rw [hbuf]; exact hg.1) j]
            split_ifs with h1 h2
            · rfl
            · exact absurd ⟨le_of_not_lt h1, h2⟩ hpc
            · rfl
          · rfl
        rw [hstep, if_neg (by
          rintro ⟨q, hq, hqc⟩
          rcases List.mem_cons.mp hq with rfl | hq
          · exact hpc hqc
          · exact hcov ⟨q, hq, hqc⟩)]

/-- C4: `apply_memory_delta_into_sized` fails exactly when the baseline is
empty and there are no delta pages; otherwise it succeeds, and the output
length is `max(baseline length, max page end over the delta, target
length)`. Holds for every incoming state of the reusable output buffer. -/
theorem apply_memory_delta_into_sized_spec (B : List Nat)
    (d : List (Nat × List Nat)) (prev : List Nat) (t : Nat) :
    (applyMemoryDeltaIntoSized B d prev t = none ↔ B = [] ∧ d = []) ∧
    (∀ out, applyMemoryDeltaIntoSized B d prev t = some out →
      out.length = max (max B.length
        (d.foldl (fun m p => max m (p.1 * MAIN_MEMORY_PAGE_SIZE + p.2.length)) 0)) t) := by
  constructor
  · unfold applyMemoryDeltaIntoSized
    split_ifs with h
    · simp [h]
    · simp [h]
  · intro out hout
    rw [← foldl_max_shift]
    unfold applyMemoryDeltaIntoSized at hout
    split_ifs at hout with h hB
    · dsimp only at hout
      rw [Option.some.injEq] at hout
      subst hout
      refine foldl_write_length _ d _ ?_
      rw [if_pos hB]
      simp only [List.length_append, List.length_take, List.length_replicate]
      omega
    · dsimp only at hout
      rw [Option.some.injEq] at hout
      subst hout
      refine foldl_write_length _ d _ ?_
      rw [if_neg hB]
      simp only [List.length_append, List.length_take, List.length_drop,
        List.length_replicate]
      omega

/-- Witness for `apply_memory_delta_into_sized_spec`: a concrete successful
application (baseline `[7]`, one delta page, target 3; the reusable buffer
came in as `[9, 9]`, and its stale byte survives at position 1). -/
theorem apply_memory_delta_into_sized_spec_witness :
    applyMemoryDeltaIntoSized [7] [(0, [5])] [9, 9] 3 = some [5, 9, 0] ∧
    (applyMemoryDeltaIntoSized [7] [(0, [5])] [9, 9] 3 = none ↔ [7] = [] ∧
      ([(0, [5])] : List (Nat × List Nat)) = []) ∧
    ([5, 9, 0] : List Nat).length = max (max [7].length
      ([(0, [5])].foldl (fun m p => max m (p.1 * MAIN_MEMORY_PAGE_SIZE + p.2.length)) 0)) 3 := by
  refine ⟨by decide, (apply_memory_delta_into_sized_spec [7] [(0, [5])] [9, 9] 3).1, ?_⟩
  exact (apply_memory_delta_into_sized_spec [7] [(0, [5])] [9, 9] 3).2 [5, 9, 0] (by decide)

theorem pageOf_length (M : List Nat) (i : Nat) :
    (pageOf M i).length =
      min (min (i * MAIN_MEMORY_PAGE_SIZE + MAIN_MEMORY_PAGE_SIZE) M.length
          - i * MAIN_MEMORY_PAGE_SIZE)
        (M.length - i * MAIN_MEMORY_PAGE_SIZE) := by
  simp [pageOf, listSlice_length]

theorem pageOf_getElem? (M : List Nat) (i k : Nat) (hk : k < (pageOf M i).length) :
    (pageOf M i)[k]? = M[i * MAIN_MEMORY_PAGE_SIZE + k]? := by
  rw [pageOf_length] at hk
  rw [pageOf, listSlice_getElem?, if_pos (by omega)]

theorem deltaSpec_entry_bounds (B M : List Nat) :
    ∀ p ∈ deltaSpec B M, p.1 * MAIN_MEMORY_PAGE_SIZE + p.2.length ≤ M.length ∧
      ∀ k, k < p.2.length → p.2[k]? = M[p.1 * MAIN_MEMORY_PAGE_SIZE + k]? := by
  rintro ⟨i, q⟩ hp
  rw [mem_deltaSpec] at hp
  obtain ⟨h1, _, rfl⟩ := hp
  refine ⟨by dsimp only; rw [pageOf_length]; omega,
    fun k hk => pageOf_getElem? M i k hk⟩

/-- The per-page writes of `apply_memory_delta_into_sized`, applied to the
delta list of `compute_memory_delta_pages`, rebuild the current memory from
any buffer that agrees with the baseline below the baseline's length
(assuming the baseline's length is page-aligned and not larger than the
current memory's). -/
theorem roundtrip_writes (B M : List Nat)
    (hB : B.length % MAIN_MEMORY_PAGE_SIZE = 0)
    (hle : B.length ≤ M.length)
    (buf : List Nat) (hbuflen : buf.length = M.length)
    (hbase : ∀ j, j < B.length → buf[j]? = B[j]?) :
    (deltaSpec B M).foldl
      (fun buf p =>
        if p.1 * MAIN_MEMORY_PAGE_SIZE + p.2.length ≤ M.length ∧ p.2 ≠ [] then
          listWrite buf (p.1 * MAIN_MEMORY_PAGE_SIZE) p.2
        else buf)
      buf = M := by
  have hd := deltaSpec_entry_bounds B M
  apply List.ext_getElem?
  intro j
  rw [foldl_write_getElem? M M.length (deltaSpec B M) hd buf hbuflen j]
  by_cases hj : j < M.length
  · by_cases hcov : ∃ p ∈ deltaSpec B M, p.1 * MAIN_MEMORY_PAGE_SIZE ≤ j ∧
        j < p.1 * MAIN_MEMORY_PAGE_SIZE + p.2.length
    · rw [if_pos hcov]
    · rw [if_neg hcov]
      have hqle : (j / MAIN_MEMORY_PAGE_SIZE) * MAIN_MEMORY_PAGE_SIZE ≤ j :=
        Nat.div_mul_le_self j MAIN_MEMORY_PAGE_SIZE
      have hqlt : (j / MAIN_MEMORY_PAGE_SIZE) * MAIN_MEMORY_PAGE_SIZE < M.length :=
        lt_of_le_of_lt hqle hj
      have hninc : pageIncluded B M (j / MAIN_MEMORY_PAGE_SIZE) = false := by
        rw [Bool.eq_false_iff]
        intro h
        apply hcov
        refine ⟨(j / MAIN_MEMORY_PAGE_SIZE, pageOf M (j / MAIN_MEMORY_PAGE_SIZE)),
          (mem_deltaSpec B M _ _).mpr ⟨hqlt, h, rfl⟩, hqle, ?_⟩
        rw [pageOf_length]
        unfold MAIN_MEMORY_PAGE_SIZE at *
        omega
      unfold pageIncluded at hninc
      split_ifs at hninc with hovq
      simp only [decide_eq_false_iff_not, not_not] at hninc
      have hjb : j < B.length := by
        unfold MAIN_MEMORY_PAGE_SIZE at *
        omega
      rw [hbase j hjb]
      have hix := congrArg
        (fun l => l[j - (j / MAIN_MEMORY_PAGE_SIZE) * MAIN_MEMORY_PAGE_SIZE]?) hninc
      simp only [listSlice_getElem?] at hix
      rw [if_pos (by unfold MAIN_MEMORY_PAGE_SIZE at *; omega),
        if_pos (by unfold MAIN_MEMORY_PAGE_SIZE at *; omega),
        Nat.add_sub_cancel' hqle] at hix
      exact hix
  · rw [if_neg (by
      rintro ⟨p, hp, hc⟩
      exact hj (lt_of_lt_of_le hc.2 (hd p hp).1))]
    rw [List.getElem?_eq_none (by omega), List.getElem?_eq_none (by omega)]

/-- C1 (amended): for page-aligned lengths with `len B ≤ len M` and `M`
nonempty, applying the delta computed by `compute_memory_delta_pages` to
the baseline with `target_len_bytes = len M` yields exactly `M`, whatever
the reusable output buffer previously contained. -/
theorem delta_roundtrip (B M prev : List Nat)
    (hB : B.length % MAIN_MEMORY_PAGE_SIZE = 0)
    (hM : M.length % MAIN_MEMORY_PAGE_SIZE = 0)
    (hle : B.length ≤ M.length) (hne : M ≠ []) :
    ∃ d, computeMemoryDeltaPages B M = some d ∧
      applyMemoryDeltaIntoSized B d prev M.length = some M := by
  refine ⟨deltaSpec B M, computeMemoryDeltaPages_eq_deltaSpec B M (Or.inl hle), ?_⟩
  have hMpos : 0 < M.length := List.length_pos.mpr hne
  have hguard : ¬(B = [] ∧ deltaSpec B M = []) := by
    rintro ⟨hB0, hd0⟩
    have h1 : (0, pageOf M 0) ∈ deltaSpec B M := by
      rw [mem_deltaSpec]
      refine ⟨by simpa using hMpos, ?_, rfl⟩
      rw [pageIncluded_iff B M 0 (by simpa using hMpos)]
      left
      rw [hB0]
      simp
    rw [hd0] at h1
    simp at h1
  unfold applyMemoryDeltaIntoSized
  rw [if_neg hguard]
  dsimp only
  have hF : (deltaSpec B M).foldl
      (fun m p => max m (p.1 * MAIN_MEMORY_PAGE_SIZE + p.2.length)) B.length
      ≤ M.length :=
    foldl_max_le _ _ _ _ hle (fun p hp => (deltaSpec_entry_bounds B M p hp).1)
  rw [max_eq_right hF]
  refine congrArg some ?_
  by_cases hBnil : B = []
  · rw [if_pos hBnil]
    refine roundtrip_writes B M hB hle _ (by simp; omega) ?_
    intro j hj
    rw [hBnil] at hj
    simp at hj
  · rw [if_neg hBnil, min_eq_left hle]
    refine roundtrip_writes B M hB hle _ ?_ ?_
    · simp only [List.length_append, List.length_take, List.length_drop,
        List.length_replicate]
      omega
    · intro j hj
      rw [List.getElem?_append, if_pos (by simp; omega), List.getElem?_take,
        if_pos (by omega)]

/-- Witness for `delta_roundtrip`: empty baseline, one full 64 KiB zero
page as the current memory. -/
theorem delta_roundtrip_witness :
    ∃ d, computeMemoryDeltaPages [] (List.replicate 65536 0) = some d ∧
      applyMemoryDeltaIntoSized [] d [9] (List.replicate 65536 0).length =
        some (List.replicate 65536 0) :=
  delta_roundtrip [] (List.replicate 65536 0) [9] rfl
    (by rw [List.length_replicate]; decide)
    (by rw [List.length_replicate]; exact Nat.zero_le _)
    (List.length_pos.mp (by rw [List.length_replicate]; decide))

/-- C1 counterexample: for `B = []`, `M = []` (both lengths are multiples
of 64 KiB) the delta is empty and `apply_memory_delta_into_sized` fails
with "Baseline length is zero and no delta pages" instead of returning
`M = []`. -/
theorem delta_roundtrip_counterexample :
    computeMemoryDeltaPages [] [] = some [] ∧
    applyMemoryDeltaIntoSized [] [] [] 0 = none := by
  exact ⟨rfl, rfl⟩

theorem sendLoop_no_reply (env : Nat → AttemptOutcome) (upd : Nat → CacheUpdate)
    (h : ∀ n s, env n ≠ .reply s) :
    ∀ fuel attempt cache, (sendLoop env upd fuel attempt cache).2 = cache ∧
      ∀ s, (sendLoop env upd fuel attempt cache).1 ≠ LoopResult.okReply s := by
  intro fuel
  induction fuel with
  | zero =>
    intro attempt cache
    cases henv : env attempt with
    | prepareErr => simp [sendLoop, henv]
    | reply s => exact absurd henv (h attempt s)
    | transportErr r => simp [sendLoop, henv]
  | succ fuel ih =>
    intro attempt cache
    cases henv : env attempt with
    | prepareErr => simp [sendLoop, henv]
    | reply s => exact absurd henv (h attempt s)
    | transportErr r =>
      simp only [sendLoop, henv]
      split_ifs with hcond
      · exact ih (attempt + 1) cache
      · simp

theorem sendLoop_first_reply (env : Nat → AttemptOutcome) (upd : Nat → CacheUpdate) :
    ∀ (fuel attempt k : Nat) (s : Bool) (cache : Option SnapshotCacheEntry),
      attempt ≤ k → k ≤ MIGRATION_SEND_MAX_ATTEMPTS → k ≤ attempt + fuel →
      (∀ n, attempt ≤ n → n < k → env n = .transportErr true) →
      env k = .reply s →
      sendLoop env upd fuel attempt cache =
        (.okReply s, applyCacheUpdate cache (upd k)) := by
  intro fuel
  induction fuel with
  | zero =>
    intro attempt k s cache h1 h2 h3 h4 h5
    have hak : k = attempt := by omega
    subst hak
    simp [sendLoop, h5]
  | succ fuel ih =>
    intro attempt k s cache h1 h2 h3 h4 h5
    by_cases heq : attempt = k
    · subst heq
      simp [sendLoop, h5]
    · have hlt : attempt < k := by omega
      have henv : env attempt = .transportErr true := h4 attempt le_rfl hlt
      have hmax : attempt < MIGRATION_SEND_MAX_ATTEMPTS := by omega
      simp only [sendLoop, henv]
      rw [if_pos ⟨hmax, trivial⟩]
      exact ih (attempt + 1) k s cache (by omega) h2 (by omega)
        (fun n hn hnk => h4 n (by omega) hnk) h5

/-- C2 (amended): the snapshot cache is updated exactly when the transport
delivers a `MigrateResponse` reply, *regardless of the reply's `success`
flag*: in every run where the transport (or request preparation) fails on
all attempts without any reply being delivered, `send_migration_request`
leaves the snapshot cache unchanged and reports failure; and in every run
whose first delivered reply arrives at attempt `k` (after `k - 1`
retryable transport failures), the cache receives the update prepared at
attempt `k`, whatever the reply's `success` flag. -/
theorem send_migration_request_cache_update (env : Nat → AttemptOutcome)
    (upd : Nat → CacheUpdate) (cache : Option SnapshotCacheEntry) :
    ((∀ n s, env n ≠ .reply s) →
      (sendMigrationRequest env upd cache).2 = cache ∧
      (sendMigrationRequest env upd cache).1 ≠ .ok) ∧
    (∀ k s, 1 ≤ k → k ≤ MIGRATION_SEND_MAX_ATTEMPTS →
      (∀ n, 1 ≤ n → n < k → env n = .transportErr true) →
      env k = .reply s →
      sendMigrationRequest env upd cache =
        (if s then .ok else .serverReturnedFailure,
          applyCacheUpdate cache (upd k))) := by
  constructor
  · intro h
    have hl := sendLoop_no_reply env upd h MIGRATION_SEND_MAX_ATTEMPTS 1 cache
    unfold sendMigrationRequest
    rcases hres : sendLoop env upd MIGRATION_SEND_MAX_ATTEMPTS 1 cache with ⟨lr, c⟩
    rw [hres] at hl
    cases lr with
    | okReply s => exact absurd rfl (hl.2 s)
    | errPrepare => exact ⟨hl.1, by simp⟩
    | errSend => exact ⟨hl.1, by simp⟩
  · intro k s hk1 hkmax hprev hreply
    have hl := sendLoop_first_reply env upd MIGRATION_SEND_MAX_ATTEMPTS 1 k s cache
      hk1 hkmax (by unfold MIGRATION_SEND_MAX_ATTEMPTS at *; omega) hprev hreply
    unfold sendMigrationRequest
    rw [hl]

/-- Witness for `send_migration_request_cache_update`: all attempts fail at
transport level (cache holding a baseline stays unchanged, the call reports
failure), and a run whose first attempt is a retryable transport failure
and whose second attempt delivers a reply with `success = false` (the
cache is replaced by the update prepared at attempt 2). -/
theorem send_migration_request_cache_update_witness :
    ((sendMigrationRequest (fun _ => .transportErr true) (fun _ => .full [3] [4])
        (some ⟨[1], [2]⟩)).2 = some ⟨[1], [2]⟩ ∧
      (sendMigrationRequest (fun _ => .transportErr true) (fun _ => .full [3] [4])
        (some ⟨[1], [2]⟩)).1 ≠ .ok) ∧
    sendMigrationRequest
        (fun n => if n = 1 then .transportErr true else .reply false)
        (fun _ => .full [3] [4]) (some ⟨[1], [2]⟩) =
      (if false then .ok else .serverReturnedFailure,
        applyCacheUpdate (some ⟨[1], [2]⟩) (.full [3] [4])) :=
  ⟨(send_migration_request_cache_update (fun _ => .transportErr true)
      (fun _ => .full [3] [4]) (some ⟨[1], [2]⟩)).1 (by intro n s; simp),
    (send_migration_request_cache_update
      (fun n => if n = 1 then .transportErr true else .reply false)
      (fun _ => .full [3] [4]) (some ⟨[1], [2]⟩)).2 2 false (by decide) (by decide)
      (by
        intro n h1 h2
        have hn : n = 1 := by omega
        subst hn
        rfl)
      rfl⟩

/-- C2 counterexample: a run whose very first attempt is delivered but whose
reply carries `success = false`: `send_migration_request` reports failure,
yet the snapshot cache has been replaced (`apply_cache_update` runs before
the `res.success` check). -/
theorem send_migration_request_updates_cache_on_failed_reply :
    (sendMigrationRequest (fun _ => .reply false) (fun _ => .full [1] [2]) none).1
        = .serverReturnedFailure ∧
    (sendMigrationRequest (fun _ => .reply false) (fun _ => .full [1] [2]) none).2
        = some ⟨[1], [2]⟩ := by
  decide

/-- C3 (amended to requests that carry both memory images): a `Migrate`
request whose `wasm_sha256` differs from the receiver's digest of the
loaded Wasm binary is rejected with `FailedPrecondition`, the snapshot
cache is untouched and no restore is issued to the runtime instance. -/
theorem migrate_digest_gate (decomp : List Nat → Option (List Nat))
    (localSha : List Nat) (cache0 : Option SnapshotCacheEntry)
    (req : MigrateRequest) (mi si : MemoryImage)
    (hmain : req.main_memory = some mi) (hsnap : req.snapify_memory = some si)
    (hsha : req.wasm_sha256 ≠ localSha) :
    serviceMigrate decomp localSha cache0 req =
      ⟨.error .failedPrecondition, cache0, none⟩ := by
  unfold serviceMigrate
  rw [hmain, hsnap]
  simp [hsha]

/-- Witness for `migrate_digest_gate`: mismatched digest with both images
present. -/
theorem migrate_digest_gate_witness :
    serviceMigrate (fun _ => none) [2] (some ⟨[7], [8]⟩)
        ⟨[1], [], some ⟨[4], false, 1, []⟩, some ⟨[5], false, 1, []⟩⟩ =
      ⟨.error .failedPrecondition, some ⟨[7], [8]⟩, none⟩ :=
  migrate_digest_gate (fun _ => none) [2] (some ⟨[7], [8]⟩)
    ⟨[1], [], some ⟨[4], false, 1, []⟩, some ⟨[5], false, 1, []⟩⟩
    ⟨[4], false, 1, []⟩ ⟨[5], false, 1, []⟩ rfl rfl (by simp)

/-- C3 counterexample: a request with a mismatched `wasm_sha256` but no
`main_memory` field is rejected with `InvalidArgument` ("Missing
main_memory"), not `FailedPrecondition` — the missing-image checks precede
the digest gate. -/
theorem migrate_digest_gate_counterexample :
    serviceMigrate (fun _ => none) [2] none ⟨[1], [], none, none⟩ =
      ⟨.error .invalidArgument, none, none⟩ := by
  decide

/-- Every error produced by `decodeBase` is `InvalidArgument`. -/
theorem decodeBase_error (decomp : List Nat → Option (List Nat))
    (img : MemoryImage) (baseline : List Nat) (e : StatusCode)
    (h : decodeBase decomp img baseline = .error e) :
    e = StatusCode.invalidArgument := by
  unfold decodeBase at h
  split_ifs at h with hd hc
  cases hdec : decomp img.data <;> rw [hdec] at h
  · exact (Except.error.inj h).symm
  · cases h

theorem validateDeltaPages_error (decomp : List Nat → Option (List Nat))
    (pages targetLen : Nat) :
    ∀ dps : List MemoryDeltaPage,
      (∃ p ∈ dps, ∃ d,
        (if p.data_compressed then decomp p.data else some p.data) = some d ∧
        (d.length ≠ WASM_PAGE_SIZE ∨ pages ≤ p.page_index ∨
          targetLen < p.page_index * WASM_PAGE_SIZE + d.length)) →
      validateDeltaPages decomp pages targetLen dps = .error .invalidArgument := by
  intro dps
  induction dps with
  | nil =>
    rintro ⟨p, hp, _⟩
    simp at hp
  | cons q rest ih =>
    rintro ⟨p, hp, d, hd, hbad⟩
    unfold validateDeltaPages
    by_cases h1 : pages ≤ q.page_index
    · rw [if_pos h1]
    · rw [if_neg h1]
      cases hq : (if q.data_compressed then decomp q.data else some q.data) with
      | none => simp only [hq]
      | some dq =>
        simp only [hq]
        by_cases h2 : dq.length ≠ WASM_PAGE_SIZE
        · rw [if_pos h2]
        · rw [if_neg h2]
          by_cases h3 : targetLen < q.page_index * WASM_PAGE_SIZE + dq.length
          · rw [if_pos h3]
          · rw [if_neg h3]
            have hrest : p ∈ rest := by
              rcases List.mem_cons.mp hp with rfl | h
              · exfalso
                rw [hq] at hd
                obtain rfl := Option.some.inj hd
                push_neg at h2
                rcases hbad with hb | hb | hb
                · exact hb h2
                · exact h1 hb
                · exact h3 hb
              · exact h
            rw [ih ⟨p, hrest, d, hd, hbad⟩]

theorem validateDeltaPages_ok (decomp : List Nat → Option (List Nat))
    (pages targetLen : Nat) :
    ∀ dps : List MemoryDeltaPage,
      (∀ p ∈ dps, ∃ d,
        (if p.data_compressed then decomp p.data else some p.data) = some d ∧
        d.length = WASM_PAGE_SIZE ∧ p.page_index < pages ∧
        p.page_index * WASM_PAGE_SIZE + d.length ≤ targetLen) →
      ∃ out, validateDeltaPages decomp pages targetLen dps = .ok out := by
  intro dps
  induction dps with
  | nil => exact fun _ => ⟨[], rfl⟩
  | cons q rest ih =>
    intro h
    obtain ⟨d, hd, h2, h3, h4⟩ := h q (List.mem_cons_self _ _)
    obtain ⟨out, hout⟩ := ih (fun p hp => h p (List.mem_cons_of_mem _ hp))
    refine ⟨(q.page_index, d) :: out, ?_⟩
    unfold validateDeltaPages
    rw [if_neg (not_le.mpr h3)]
    simp only [hd]
    rw [if_neg (by simp [h2]), if_neg (not_lt.mpr h4), hout]

/-- C6: receiver-side delta-page validation inside `reconstruct_one`
(`requested_len = pages × 64 KiB` at the call site). Any delta page whose
(decompressed, when flagged) length is not exactly 64 KiB, or whose
`page_index` is not below `pages`, or whose `page_index × 64 KiB + len`
exceeds `pages × 64 KiB`, makes `reconstruct_one` reject with
`InvalidArgument`; when every delta page satisfies all three conditions,
the per-page validation succeeds and collects the pages. -/
theorem migrate_delta_page_validation (decomp : List Nat → Option (List Nat))
    (img : MemoryImage) (baseline : List Nat) :
    ((∃ p ∈ img.delta_pages, ∃ d,
        (if p.data_compressed then decomp p.data else some p.data) = some d ∧
        (d.length ≠ WASM_PAGE_SIZE ∨ img.pages ≤ p.page_index ∨
          img.pages * WASM_PAGE_SIZE < p.page_index * WASM_PAGE_SIZE + d.length)) →
      reconstructOne decomp img baseline (img.pages * WASM_PAGE_SIZE) =
        .error .invalidArgument) ∧
    ((∀ p ∈ img.delta_pages, ∃ d,
        (if p.data_compressed then decomp p.data else some p.data) = some d ∧
        d.length = WASM_PAGE_SIZE ∧ p.page_index < img.pages ∧
        p.page_index * WASM_PAGE_SIZE + d.length ≤ img.pages * WASM_PAGE_SIZE) →
      ∃ out, validateDeltaPages decomp img.pages (img.pages * WASM_PAGE_SIZE)
          img.delta_pages = .ok out) := by
  constructor
  · intro hbad
    have hne : img.delta_pages ≠ [] := by
      obtain ⟨p, hp, _⟩ := hbad
      exact List.ne_nil_of_mem hp
    have hval := validateDeltaPages_error decomp img.pages
      (img.pages * WASM_PAGE_SIZE) img.delta_pages hbad
    unfold reconstructOne
    split_ifs with h1
    · rfl
    · cases hbase : decodeBase decomp img baseline with
      | error e =>
        simp only [hbase]
        rw [decodeBase_error decomp img baseline e hbase]
      | ok base0 =>
        simp only [hbase]
        split_ifs with h2
        · rfl
        · rw [hval]
  · exact validateDeltaPages_ok decomp img.pages (img.pages * WASM_PAGE_SIZE)
      img.delta_pages

/-- Witness for `migrate_delta_page_validation`: a one-byte uncompressed
delta page (length 1 ≠ 64 KiB) forces `InvalidArgument`, and an image with
no delta pages passes the per-page validation vacuously. -/
theorem migrate_delta_page_validation_witness :
    reconstructOne (fun l => some l) ⟨[], false, 1, [⟨0, [9], false⟩]⟩ []
        (1 * WASM_PAGE_SIZE) = .error .invalidArgument ∧
    ∃ out, validateDeltaPages (fun l => some l) 1 (1 * WASM_PAGE_SIZE) [] = .ok out :=
  ⟨(migrate_delta_page_validation (fun l => some l) ⟨[], false, 1, [⟨0, [9], false⟩]⟩
      []).1 ⟨⟨0, [9], false⟩, by simp, [9], by simp, by left; decide⟩,
    (migrate_delta_page_validation (fun l => some l) ⟨[], false, 1, []⟩ []).2
      (by simp)⟩

/-- C7: the `should_checkpoint` handler returns 0 with the migration context
unchanged whenever the resolved destination equals the local node id
(clauses 1 and 2) or the reason is `FuncExit` with an empty migration stack
(clause 3); a `FuncExit` migration proceeds only when the current wasm stack
height (hardcoded 0 in the source) equals the top entry's recorded height,
with destination `top.from_node_id` (clause 4); when it migrates, a
`FuncEntry` pushes one entry, a `FuncExit` pops one, the pending migration
`{func_meta, to_node_id, reason}` is recorded and 1 is returned (clauses 5
and 6). -/
theorem should_checkpoint_decision (meta : KafuFunctionMetadata)
    (nodeId : String) (ctx : MigrationCtx) :
    (meta.dest = some nodeId →
      shouldCheckpointEnabled (some meta) nodeId ctx 0 = some (0, nodeId, ctx)) ∧
    (∀ e, ctx.stack.getLast? = some e → e.from_node_id = nodeId →
      shouldCheckpointEnabled (some meta) nodeId ctx 1 = some (0, nodeId, ctx)) ∧
    (ctx.stack = [] →
      shouldCheckpointEnabled (some meta) nodeId ctx 1 = some (0, nodeId, ctx)) ∧
    (∀ r n c', shouldCheckpointEnabled (some meta) nodeId ctx 1 = some (r, n, c') →
      r = 1 →
      ∃ e, ctx.stack.getLast? = some e ∧
        e.wasm_stack_height = currentWasmStackHeight ∧
        e.from_node_id ≠ nodeId ∧
        c' = ⟨some ⟨meta, e.from_node_id, .funcExit⟩, ctx.stack.dropLast⟩) ∧
    (∀ d, meta.dest = some d → d ≠ nodeId →
      shouldCheckpointEnabled (some meta) nodeId ctx 0 =
        some (1, nodeId,
          ⟨some ⟨meta, d, .funcEntry⟩,
            ctx.stack ++ [⟨nodeId, currentWasmStackHeight⟩]⟩)) ∧
    (∀ e, ctx.stack.getLast? = some e → e.from_node_id ≠ nodeId →
      e.wasm_stack_height = currentWasmStackHeight →
      shouldCheckpointEnabled (some meta) nodeId ctx 1 =
        some (1, nodeId, ⟨some ⟨meta, e.from_node_id, .funcExit⟩,
          ctx.stack.dropLast⟩)) := by
  refine ⟨?_, ?_, ?_, ?_, ?_, ?_⟩
  · intro hdest
    simp [shouldCheckpointEnabled, interruptReasonNew, handleMigrationPoint,
      hdest, shouldMigrate]
  · intro e hlast hfrom
    simp [shouldCheckpointEnabled, interruptReasonNew, handleMigrationPoint,
      hlast, hfrom, shouldMigrate]
  · intro hstack
    simp [shouldCheckpointEnabled, interruptReasonNew, handleMigrationPoint,
      hstack, shouldMigrate]
  · intro r n c' hres hr
    subst hr
    simp only [shouldCheckpointEnabled, interruptReasonNew, handleMigrationPoint,
      shouldMigrate] at hres
    norm_num at hres
    cases hlast : ctx.stack.getLast? with
    | none => simp [hlast] at hres
    | some e =>
      simp only [hlast, Option.map_some'] at hres
      split_ifs at hres with hcond
      · simp only [Option.some.injEq, Prod.mk.injEq] at hres
        obtain ⟨-, -, hc⟩ := hres
        refine ⟨e, rfl, ?_, ?_, ?_⟩
        · exact (of_decide_eq_true hcond.2).symm
        · exact fun h => hcond.1 h.symm
        · rw [← hc]
          simp [onMigrate]
      · simp at hres
  · intro d hdest hne
    have hnd : ¬nodeId = d := fun h => hne h.symm
    simp [shouldCheckpointEnabled, interruptReasonNew, handleMigrationPoint,
      hdest, shouldMigrate, onMigrate, hnd]
  · intro e hlast hfrom hh
    have hnd : ¬nodeId = e.from_node_id := fun h => hfrom h.symm
    simp [shouldCheckpointEnabled, interruptReasonNew, handleMigrationPoint,
      hlast, shouldMigrate, onMigrate, hh, hnd]

/-- Witness for `should_checkpoint_decision`: local node "A", destination
"B", one stack entry recorded at height 0. -/
theorem should_checkpoint_decision_witness :
    shouldCheckpointEnabled (some ⟨some "f", some "A"⟩) "A"
        ⟨none, [⟨"B", 0⟩]⟩ 0 = some (0, "A", ⟨none, [⟨"B", 0⟩]⟩) ∧
    shouldCheckpointEnabled (some ⟨some "f", some "A"⟩) "A"
        ⟨none, [⟨"B", 0⟩]⟩ 1 =
      some (1, "A", ⟨some ⟨⟨some "f", some "A"⟩, "B", .funcExit⟩, []⟩) :=
  ⟨(should_checkpoint_decision ⟨some "f", some "A"⟩ "A" ⟨none, [⟨"B", 0⟩]⟩).1 rfl,
    by
      have h := (should_checkpoint_decision ⟨some "f", some "A"⟩ "A"
        ⟨none, [⟨"B", 0⟩]⟩).2.2.2.2.2 ⟨"B", 0⟩ rfl (by decide) rfl
      simpa using h⟩

/-- C10: the host `snapify.should_checkpoint` implementation is not total
over its `i32` argument: for every reason value other than 0 (`FuncEntry`)
and 1 (`FuncExit`), `InterruptReason::new` panics — the host callback
aborts instead of returning 0/1 — in both the real and the dummy linker. -/
theorem should_checkpoint_not_total (meta : Option KafuFunctionMetadata)
    (nodeId : String) (ctx : MigrationCtx) (r : Int) :
    (shouldCheckpointEnabled meta nodeId ctx r = none ↔ (r ≠ 0 ∧ r ≠ 1)) ∧
    (shouldCheckpointDummy meta nodeId ctx r = none ↔ (r ≠ 0 ∧ r ≠ 1)) := by
  unfold shouldCheckpointEnabled shouldCheckpointDummy interruptReasonNew
  by_cases h0 : r = 0
  · subst h0
    simp only [if_pos rfl]
    cases hmp : handleMigrationPoint meta nodeId ctx .funcEntry with
    | error e => simp [hmp]
    | ok v =>
      rcases v with ⟨p | p, c⟩ <;> simp [hmp]
  · by_cases h1 : r = 1
    · subst h1
      simp only [if_neg one_ne_zero, if_pos rfl]
      cases hmp : handleMigrationPoint meta nodeId ctx .funcExit with
      | error e => simp [hmp, h0]
      | ok v =>
        rcases v with ⟨p | p, c⟩ <;> simp [hmp, h0]
    · simp [h0, h1]

/-- C8 (amended): compression policy for the payloads that go through the
compression decision. `compress_if_smaller` uses the (size-prepended)
compressed form, flagged `true`, exactly when it is strictly shorter than
the raw bytes, and the raw bytes flagged `false` otherwise;
`build_delta_pages_payload` applies the same rule to every delta page when
compression is enabled and always transmits the raw bytes flagged `false`
when it is disabled, preserving page indices and order; in
`prepare_full_snapshot_request` the main-memory full image follows the same
rule, while the snapify full image is always transmitted raw with the flag
`false`, even when compression is enabled. -/
theorem compression_policy (comp : List Nat → List Nat)
    (raw : List (Nat × List Nat)) (useCompression : Bool)
    (wasmSha : List Nat) (stack : List MigrationStackEntry)
    (mainMemory snapifyMemory : List Nat) :
    (∀ data, ((compressIfSmaller comp data).2 = true ↔
        (comp data).length < data.length) ∧
      (compressIfSmaller comp data).1 =
        (if (compressIfSmaller comp data).2 = true then comp data else data)) ∧
    (buildDeltaPagesPayload comp raw useCompression).length = raw.length ∧
    (∀ (k : Nat) (p : Nat × List Nat), raw[k]? = some p →
      (buildDeltaPagesPayload comp raw useCompression)[k]? = some
        { page_index := p.1
          data :=
            if useCompression = true ∧ (comp p.2).length < p.2.length then comp p.2
            else p.2
          data_compressed :=
            useCompression && decide ((comp p.2).length < p.2.length) }) ∧
    ((prepareFullSnapshotRequest comp useCompression wasmSha stack mainMemory
        snapifyMemory).1.main_memory = some
      { data :=
          if useCompression = true ∧ (comp mainMemory).length < mainMemory.length
          then comp mainMemory else mainMemory
        compressed :=
          useCompression && decide ((comp mainMemory).length < mainMemory.length)
        pages := mainMemory.length / WASM_PAGE_SIZE
        delta_pages := [] }) ∧
    ((prepareFullSnapshotRequest comp useCompression wasmSha stack mainMemory
        snapifyMemory).1.snapify_memory = some
      { data := snapifyMemory
        compressed := false
        pages := snapifyMemory.length / WASM_PAGE_SIZE
        delta_pages := [] }) := by
  refine ⟨?_, ?_, ?_, ?_, ?_⟩
  · intro data
    unfold compressIfSmaller
    by_cases h : (comp data).length < data.length
    · simp [h]
    · simp [h]
  · simp [buildDeltaPagesPayload]
  · intro k p hk
    unfold buildDeltaPagesPayload
    rw [List.getElem?_map, hk, Option.map_some']
    cases useCompression with
    | false => simp
    | true =>
      by_cases h : (comp p.2).length < p.2.length
      · simp [h]
      · simp [h]
  · unfold prepareFullSnapshotRequest compressIfSmaller
    cases useCompression with
    | false => simp
    | true =>
      by_cases h : (comp mainMemory).length < mainMemory.length
      · simp [h]
      · simp [h]
  · unfold prepareFullSnapshotRequest
    cases useCompression with
    | false => rfl
    | true => rfl

/-- Witness for `compression_policy`: an incompressible one-byte page
(`comp` doubles the input) is sent raw with the flag `false`, both as a
delta page and as the main full image. -/
theorem compression_policy_witness :
    (((compressIfSmaller (fun l => l ++ l) [5]).2 = true ↔
        ((fun l => l ++ l) [5] : List Nat).length < [5].length) ∧
      (compressIfSmaller (fun l => l ++ l) [5]).1 =
        (if (compressIfSmaller (fun l => l ++ l) [5]).2 = true
          then (fun l => l ++ l) [5] else [5])) ∧
    (buildDeltaPagesPayload (fun l => l ++ l) [(3, [5])] true)[0]? = some
      { page_index := 3
        data := if (true = true) ∧ ((fun l => l ++ l) [5] : List Nat).length < [5].length
          then (fun l => l ++ l) [5] else [5]
        data_compressed :=
          true && decide (((fun l => l ++ l) [5] : List Nat).length < [5].length) } ∧
    (prepareFullSnapshotRequest (fun l => l ++ l) true [9] [] [5] [6]).1.snapify_memory
      = some { data := [6], compressed := false, pages := 0, delta_pages := [] } := by
  refine ⟨(compression_policy (fun l => l ++ l) [(3, [5])] true [9] [] [5] [6]).1 [5],
    ?_, ?_⟩
  · have h := (compression_policy (fun l => l ++ l) [(3, [5])] true [9] [] [5]
      [6]).2.2.1 0 (3, [5]) rfl
    simpa using h
  · have h := (compression_policy (fun l => l ++ l) [(3, [5])] true [9] [] [5]
      [6]).2.2.2.2
    simpa using h

/-- C8 counterexample: with compression enabled and a compressor under
which the snapify memory strictly shrinks (one byte to zero bytes),
`prepare_full_snapshot_request` still transmits the snapify full image raw
with `compressed = false` — the compressed form is never used for it. -/
theorem compression_policy_counterexample :
    ((prepareFullSnapshotRequest (fun _ => []) true [] [] [7] [5]).1.snapify_memory
      = some { data := [5], compressed := false, pages := 0, delta_pages := [] }) ∧
    ((fun _ => ([] : List Nat)) [5]).length < [5].length := by
  decide

/-- The monitor invariant: before any coordinator heartbeat carrying
`execution_started = true` has been observed, the loop never sends the
shutdown signal and the failure counter stays at zero. -/
theorem runMonitor_gated (coordinatorId : String) (events : List MonitorEvent) :
    ∀ s : MonitorState, s.coordinator_execution_observed = false →
      s.state.consecutive_failures = 0 →
      (∀ e ∈ events, ¬ isCoordinatorExecHeartbeat coordinatorId e) →
      (runMonitor coordinatorId .shutdownSelf events s).2 = false ∧
      (runMonitor coordinatorId .shutdownSelf events s).1.state.consecutive_failures
        = 0 := by
  induction events with
  | nil =>
    intro s hobs hfail h
    exact ⟨rfl, hfail⟩
  | cons e rest ih =>
    intro s hobs hfail h
    have hrest : ∀ e' ∈ rest, ¬ isCoordinatorExecHeartbeat coordinatorId e' :=
      fun e' he' => h e' (List.mem_cons_of_mem _ he')
    have he := h e (List.mem_cons_self _ _)
    cases e with
    | shutdownRecv => exact ⟨rfl, hfail⟩
    | heartbeat fromId execStarted seen =>
      by_cases hfrom : fromId = coordinatorId
      · have hex : execStarted = false := by
          cases execStarted
          · rfl
          · exact absurd ⟨hfrom, rfl⟩ he
        subst hfrom hex
        simp only [runMonitor, monitorStep, if_pos rfl, hobs]
        norm_num
        exact ih _ rfl hfail hrest
      · simp only [runMonitor, monitorStep, if_neg hfrom]
        exact ih _ hobs hfail hrest
    | tick now =>
      simp only [runMonitor, monitorStep, hobs]
      norm_num
      exact ih _ hobs hfail hrest

/-- C9: loss gating. In every execution of the follower's push-heartbeat
monitor in which no heartbeat from the coordinator with
`execution_started = true` has been observed, the follower never sends the
local shutdown signal, and ticks (with or without heartbeats from other
sources) never increment the failure counter. -/
theorem coordinator_loss_gating (coordinatorId : String)
    (onLost : FollowerOnCoordinatorLost) (events : List MonitorEvent)
    (h : ∀ e ∈ events, ¬ isCoordinatorExecHeartbeat coordinatorId e) :
    (runCoordinatorPushHeartbeatMonitor coordinatorId onLost events).2 = false ∧
    (runCoordinatorPushHeartbeatMonitor coordinatorId onLost
        events).1.state.consecutive_failures = 0 := by
  cases onLost with
  | ignoreLost => exact ⟨rfl, rfl⟩
  | shutdownSelf =>
    exact runMonitor_gated coordinatorId events monitorInit rfl rfl h

/-- Witness for `coordinator_loss_gating`: several ticks and non-activating
heartbeats with coordinator "c": no shutdown, failure counter zero. -/
theorem coordinator_loss_gating_witness :
    (runCoordinatorPushHeartbeatMonitor "c" .shutdownSelf
        [.tick 0, .heartbeat "a" true 1, .heartbeat "c" false 2, .tick 9000,
          .tick 20000]).2 = false ∧
    (runCoordinatorPushHeartbeatMonitor "c" .shutdownSelf
        [.tick 0, .heartbeat "a" true 1, .heartbeat "c" false 2, .tick 9000,
          .tick 20000]).1.state.consecutive_failures = 0 :=
  coordinator_loss_gating "c" .shutdownSelf
    [.tick 0, .heartbeat "a" true 1, .heartbeat "c" false 2, .tick 9000,
      .tick 20000] (by decide)

end Kafu
